import Mathlib

/-!
Verification of the core data model and computational contracts of the
Kindleperftool repository (kindle_perfmate). Python floats are modelled as
rationals; optional values as Option; Python dictionaries produced and
consumed by the to_dict / from_dict functions as structures whose fields are
Option-wrapped to record key presence (a missing key selects the keyword
default of the dataclass constructor, exactly as Python argument defaults do).
-/

/-- Embedding of the Iteration dataclass of utils/data_model.py: a single test
iteration result. Field defaults mirror the dataclass defaults. -/
structure Iteration where
  time_ms : Option ℚ := none
  notes : String := ""
  skipped : Bool := false
deriving DecidableEq, Repr

/-- Embedding of the TestCase dataclass of utils/data_model.py. The
iterations default is the default_factory producing five fresh empty
Iterations. -/
structure TestCase where
  name : String
  steps : List String := []
  baseline_ms : Option ℚ := none
  priority : String := "P3"
  iterations : List Iteration := List.replicate 5 {}
  test_notes : String := ""
  quip_url : String := ""
deriving DecidableEq, Repr

/-- Embedding of the Session dataclass of utils/data_model.py. The Python
start_time default is a datetime.now() call, so here start_time carries no
default and is supplied explicitly where needed. -/
structure Session where
  week : String := ""
  device : String := ""
  build : String := ""
  priority_filter : String := "All"
  test_cases : List TestCase := []
  start_time : String
  end_time : Option String := none
  global_notes : String := ""
deriving DecidableEq, Repr

/-- Dictionary shape accepted by Iteration.from_dict, namely keyword
arguments for the Iteration constructor. An outer none models an absent key,
in which case the dataclass default applies. -/
structure IterDict where
  time_ms : Option (Option ℚ) := none
  notes : Option String := none
  skipped : Option Bool := none
deriving DecidableEq, Repr

/-- Empty Python dictionary as an IterDict: every key absent. -/
def IterDict.empty : IterDict := {}

/-- Embedding of Iteration.from_dict of utils/data_model.py, which calls the
Iteration constructor on the keyword arguments of the dictionary. -/
def Iteration.from_dict (d : IterDict) : Iteration :=
  { time_ms := d.time_ms.getD none
    notes := d.notes.getD ""
    skipped := d.skipped.getD false }

/-- Embedding of Iteration.to_dict of utils/data_model.py, which returns the
field dictionary of the instance: every key present. -/
def Iteration.to_dict (it : Iteration) : IterDict :=
  { time_ms := some it.time_ms
    notes := some it.notes
    skipped := some it.skipped }

/-- Dictionary shape accepted by TestCase.from_dict: keyword arguments of the
TestCase constructor, with the iterations entry read through data.get. The
name key is required by the constructor, the remaining keys are optional. -/
structure TestCaseDict where
  name : String
  steps : Option (List String) := none
  baseline_ms : Option (Option ℚ) := none
  priority : Option String := none
  iterations : Option (List IterDict) := none
  test_notes : Option String := none
  quip_url : Option String := none
deriving DecidableEq, Repr

/-- Embedding of TestCase.from_dict of utils/data_model.py: parse the
iteration dictionaries (defaulting to five empty dictionaries when the key is
absent), pad with empty Iterations while fewer than 5, trim to the first 5,
and call the TestCase constructor. -/
def TestCase.from_dict (d : TestCaseDict) : TestCase :=
  let raw := (d.iterations.getD (List.replicate 5 IterDict.empty)).map Iteration.from_dict
  let padded := raw ++ List.replicate (5 - raw.length) ({} : Iteration)
  { name := d.name
    steps := d.steps.getD []
    baseline_ms := d.baseline_ms.getD none
    priority := d.priority.getD "P3"
    iterations := padded.take 5
    test_notes := d.test_notes.getD ""
    quip_url := d.quip_url.getD "" }

/-- Embedding of TestCase.to_dict of utils/data_model.py: every key present,
iterations serialized elementwise. -/
def TestCase.to_dict (tc : TestCase) : TestCaseDict :=
  { name := tc.name
    steps := some tc.steps
    baseline_ms := some tc.baseline_ms
    priority := some tc.priority
    iterations := some (tc.iterations.map Iteration.to_dict)
    test_notes := some tc.test_notes
    quip_url := some tc.quip_url }

/-- Dictionary shape accepted by Session.from_dict: keyword arguments of the
Session constructor, with test_cases read through data.get. -/
structure SessionDict where
  week : Option String := none
  device : Option String := none
  build : Option String := none
  priority_filter : Option String := none
  test_cases : Option (List TestCaseDict) := none
  start_time : Option String := none
  end_time : Option (Option String) := none
  global_notes : Option String := none
deriving DecidableEq, Repr

/-- Embedding of Session.from_dict of utils/data_model.py. The now argument
stands for the datetime.now().isoformat() string that the dataclass
default_factory would produce when the start_time key is absent. -/
def Session.from_dict (now : String) (d : SessionDict) : Session :=
  { week := d.week.getD ""
    device := d.device.getD ""
    build := d.build.getD ""
    priority_filter := d.priority_filter.getD "All"
    test_cases := (d.test_cases.getD []).map TestCase.from_dict
    start_time := d.start_time.getD now
    end_time := d.end_time.getD none
    global_notes := d.global_notes.getD "" }

/-- Embedding of Session.to_dict of utils/data_model.py: every key present,
test cases serialized elementwise. -/
def Session.to_dict (s : Session) : SessionDict :=
  { week := some s.week
    device := some s.device
    build := some s.build
    priority_filter := some s.priority_filter
    test_cases := some (s.test_cases.map TestCase.to_dict)
    start_time := some s.start_time
    end_time := some s.end_time
    global_notes := some s.global_notes }

/-- Embedding of calculate_average of utils/timer_utils.py: the list
comprehension keeps time_ms of entries that have a recorded time and are not
skipped; an empty selection yields None, otherwise the sum divided by the
count. -/
def calculate_average (iterations : List Iteration) : Option ℚ :=
  let valid_times :=
    iterations.filterMap
      (fun it => if it.time_ms.isSome && !it.skipped then it.time_ms else none)
  if valid_times.isEmpty then none
  else some (valid_times.sum / valid_times.length)

/-- Embedding of the elif branch of calculate_spike of utils/timer_utils.py
that compares against the average when no positive baseline is available. -/
def spike_vs_average (it : ℚ) (average_ms : Option ℚ) : Option ℚ :=
  match average_ms with
  | some a => if 0 < a then some ((it - a) / a * 100) else none
  | none => none

/-- Embedding of calculate_spike of utils/timer_utils.py: undefined for a
missing or non-positive iteration time; deviation from the baseline when the
baseline is a positive number; otherwise deviation from the average when that
is a positive number; otherwise undefined. -/
def calculate_spike (iteration_ms baseline_ms average_ms : Option ℚ) : Option ℚ :=
  match iteration_ms with
  | none => none
  | some it =>
    if it ≤ 0 then none
    else
      match baseline_ms with
      | some b =>
        if 0 < b then some ((it - b) / b * 100)
        else spike_vs_average it average_ms
      | none => spike_vs_average it average_ms

/-- Embedding of TestTableWidget.apply_priority_filter of
widgets/test_table.py restricted to its data content: the list of test cases
the table displays. The filter keeps the whole list (a shallow copy in
Python, so the same TestCase objects) for "All" and otherwise the
comprehension over test cases whose priority equals the selected one. -/
def apply_priority_filter (session : Session) (priority : String) : List TestCase :=
  if priority = "All" then session.test_cases
  else session.test_cases.filter (fun tc => tc.priority == priority)

/-- Embedding of TestTableWidget.update_iteration_data of
widgets/test_table.py, data-model part: look the row up in the filtered
list, find the index of that very test case in the session list with
list.index (first structurally equal element, the Python dataclass eq), pad
its iterations while shorter than the target index plus one, and overwrite
the slot. Out-of-range rows, a failed index lookup and an iteration index
outside 0..4 leave the session unchanged (the code returns early). -/
def update_iteration_data (session : Session) (filtered : List TestCase)
    (row_index iteration_index : ℕ) (iteration_data : Iteration) : Session :=
  match filtered.get? row_index with
  | none => session
  | some tc_in_filtered =>
    match session.test_cases.findIdx? (fun x => x = tc_in_filtered) with
    | none => session
    | some original_row_index =>
      if iteration_index < 5 then
        match session.test_cases.get? original_row_index with
        | none => session
        | some tc0 =>
          let padded :=
            tc0.iterations ++
              List.replicate (iteration_index + 1 - tc0.iterations.length) ({} : Iteration)
          let tc1 := { tc0 with iterations := padded.set iteration_index iteration_data }
          { session with test_cases := session.test_cases.set original_row_index tc1 }
      else session

/-- Embedding of the first_empty_iter computation inside
TestTableWidget.handle_selection_change of widgets/test_table.py: the first
index whose iteration has no recorded time, defaulting to the length of the
iterations list (List.findIdx returns the length when no element matches,
exactly like the Python next(generator, default) call). -/
def first_empty_iteration (tc : TestCase) : ℕ :=
  tc.iterations.findIdx (fun it => it.time_ms.isNone)

/-- Normalization of a Python list index: negative indices count from the
end; a normalized index outside the list raises IndexError, modelled as
none. -/
def pyNormIdx (len : ℕ) (i : ℤ) : Option ℕ :=
  let j := if i < 0 then i + len else i
  if 0 ≤ j ∧ j < len then some j.toNat else none

/-- State of StopwatchWidget of widgets/stopwatch.py that the
confirm_and_next transition reads and writes. elapsed_ms carries the frozen
or current reading of the elapsed timer; test_cases is the widget reference
to the list of test cases; the index fields mirror the private counters of
the widget, with -1 the no-selection sentinel of the test case index. -/
structure StopwatchState where
  is_running : Bool := false
  elapsed_ms : ℚ := 0
  current_test_case_index : ℤ := -1
  current_iteration_index : ℕ := 0
  test_cases : List TestCase := []
  iteration_notes_input : String := ""
deriving DecidableEq, Repr

/-- Embedding of StopwatchWidget.move_to_next_test_case of
widgets/stopwatch.py: invalidate the current test case index and reset the
iteration counter; the test case list is untouched. -/
def move_to_next_test_case (st : StopwatchState) : StopwatchState :=
  { st with current_test_case_index := -1, current_iteration_index := 0 }

/-- Embedding of StopwatchWidget.confirm_and_next of widgets/stopwatch.py.
Guards: no selection or empty list, and an index at or past the length,
return unchanged. With five iterations already confirmed the method prints
and calls move_to_next_test_case without touching any iteration. Otherwise
it stops the timer, writes the frozen elapsed time and the stripped notes
text into the current slot (padding the list first, clearing skipped),
resets the timer state and notes input, increments the iteration counter and
moves on to the next test case when the counter reaches five. -/
def confirm_and_next (st : StopwatchState) : StopwatchState :=
  if st.current_test_case_index = -1 ∨ st.test_cases.length = 0 then st
  else if (st.test_cases.length : ℤ) ≤ st.current_test_case_index then st
  else
    match pyNormIdx st.test_cases.length st.current_test_case_index with
    | none => st
    | some j =>
      match st.test_cases.get? j with
      | none => st
      | some current_tc =>
        if 5 ≤ st.current_iteration_index then move_to_next_test_case st
        else
          let it : Iteration :=
            { time_ms := some st.elapsed_ms
              notes := st.iteration_notes_input.trim
              skipped := false }
          let padded :=
            current_tc.iterations ++
              List.replicate
                (st.current_iteration_index + 1 - current_tc.iterations.length)
                ({} : Iteration)
          let tc1 := { current_tc with iterations := padded.set st.current_iteration_index it }
          let st1 :=
            { st with
              test_cases := st.test_cases.set j tc1
              is_running := false
              elapsed_ms := 0
              iteration_notes_input := ""
              current_iteration_index := st.current_iteration_index + 1 }
          if 5 ≤ st.current_iteration_index + 1 then move_to_next_test_case st1 else st1

/-- Numeric value of a decimal digit character. -/
def charDigit (c : Char) : ℕ := c.toNat - 48

/-- Value of a list of decimal digit characters read left to right. -/
def digitsVal (cs : List Char) : ℕ :=
  cs.foldl (fun a c => a * 10 + charDigit c) 0

/-- Model of the Python str.strip method on a character list: whitespace
removed from both ends. -/
def pyStrip (cs : List Char) : List Char :=
  ((cs.dropWhile Char.isWhitespace).reverse.dropWhile Char.isWhitespace).reverse

/-- Model of the Python str.lower method on a character list, for the ASCII
texts this development feeds it. -/
def pyLower (cs : List Char) : List Char :=
  cs.map Char.toLower

/-- Model of the Python str.endswith method for a one-character suffix: the
list is nonempty and its last character is the given one. -/
def endsWithChar (cs : List Char) (c : Char) : Bool :=
  match cs.getLast? with
  | some d => d == c
  | none => false

/-- Split a character list at the first exponent marker e or E: the mantissa
characters, and the characters after the marker when one is present. -/
def splitAtExp (cs : List Char) : List Char × Option (List Char) :=
  let m := cs.takeWhile (fun c => !(c == 'e' || c == 'E'))
  match cs.drop m.length with
  | [] => (m, none)
  | _ :: t => (m, some t)

/-- Parse an unsigned decimal mantissa: digits with at most one decimal
point and at least one digit overall. -/
def parseMantissa (cs : List Char) : Option ℚ :=
  let ip := cs.takeWhile (fun c => !(c == '.'))
  match cs.drop ip.length with
  | [] =>
    if ip ≠ [] ∧ ip.all Char.isDigit then some ((digitsVal ip : ℕ) : ℚ) else none
  | _ :: fp =>
    if (ip ++ fp) ≠ [] ∧ ip.all Char.isDigit ∧ fp.all Char.isDigit ∧
        fp.all (fun c => !(c == '.')) then
      some (((digitsVal (ip ++ fp) : ℕ) : ℚ) / (10 : ℚ) ^ fp.length)
    else none

/-- Parse an optionally signed nonempty run of decimal digits as an
integer. -/
def parseSignedInt (cs : List Char) : Option ℤ :=
  let (sgn, ds) :=
    match cs with
    | '-' :: t => ((-1 : ℤ), t)
    | '+' :: t => ((1 : ℤ), t)
    | t => ((1 : ℤ), t)
  if ds ≠ [] ∧ ds.all Char.isDigit then some (sgn * (digitsVal ds : ℕ)) else none

/-- Model of the Python float builtin applied to text, covering finite
decimal literals: surrounding whitespace is ignored, an optional sign is
followed by digits with at most one decimal point (at least one digit) and
an optional signed exponent. The Python-specific spellings inf, infinity,
nan and underscore digit separators are outside the scope of this model;
none of the results proved here feeds such a literal to it. -/
def pyFloatChars (cs0 : List Char) : Option ℚ :=
  let cs := pyStrip cs0
  let (neg, rest) :=
    match cs with
    | '-' :: t => (true, t)
    | '+' :: t => (false, t)
    | t => (false, t)
  let (mant, expPart) := splitAtExp rest
  match parseMantissa mant with
  | none => none
  | some m =>
    let signed := if neg then -m else m
    match expPart with
    | none => some signed
    | some ecs =>
      match parseSignedInt ecs with
      | none => none
      | some e => some (signed * (10 : ℚ) ^ e)

/-- Model of the Python float builtin on a string, via its characters. -/
def pyFloat (s : String) : Option ℚ :=
  pyFloatChars s.toList

/-- Embedding of the Baseline branch of TestTableWidget.handle_cell_changed
of widgets/test_table.py, data-model part: the cell text is stripped; text
ending in s (case-insensitive) is parsed without the suffix and scaled from
seconds to milliseconds; otherwise nonempty text is parsed as milliseconds;
empty text clears the baseline. A float conversion failure raises ValueError
which the except clause swallows, leaving the test case unchanged. -/
def handle_cell_changed_baseline (tc : TestCase) (text : String) : TestCase :=
  let new_value := pyStrip text.toList
  if endsWithChar (pyLower new_value) 's' then
    match pyFloatChars new_value.dropLast with
    | some x => { tc with baseline_ms := some (x * 1000) }
    | none => tc
  else if new_value ≠ [] then
    match pyFloatChars new_value with
    | some x => { tc with baseline_ms := some x }
    | none => tc
  else { tc with baseline_ms := none }

/-- Names the module utils/file_manager.py binds at top level that matter to
save_session: it imports json, os, csv, the typing names and the two data
model classes, and never the datetime module. -/
def file_manager_imported_names : List String :=
  ["json", "os", "csv", "Optional", "List", "Dict", "Any", "Session", "TestCase"]

/-- Whether a global name resolves inside utils/file_manager.py. -/
def file_manager_resolves (n : String) : Bool :=
  file_manager_imported_names.contains n

/-- Embedding of save_session of utils/file_manager.py. With no filename the
default-filename branch first evaluates datetime.now(); the name datetime is
not bound in the module, so a NameError is raised before the file is opened,
modelled as an error carrying no written content. With a filename the
function writes session.to_dict as JSON and returns the path; the ok result
carries the filename and the written dictionary. -/
def save_session (session : Session) (filename : Option String) :
    Except String (String × SessionDict) :=
  match filename with
  | none =>
    if file_manager_resolves "datetime" then
      Except.ok ("session_default", session.to_dict)
    else
      Except.error "NameError: name datetime is not defined"
  | some f => Except.ok (f, session.to_dict)

/-- Fixture: P0 test case A of the filter scenario. -/
def tcP0a : TestCase := { name := "TC A", priority := "P0" }

/-- Fixture: P1 test case B of the filter scenario. -/
def tcP1b : TestCase := { name := "TC B", priority := "P1" }

/-- Fixture: P0 test case C of the filter scenario. -/
def tcP0c : TestCase := { name := "TC C", priority := "P0" }

/-- Fixture: P2 test case D of the filter scenario. -/
def tcP2d : TestCase := { name := "TC D", priority := "P2" }

/-- Fixture: session with test case priorities P0, P1, P0, P2. -/
def sessFilter : Session :=
  { test_cases := [tcP0a, tcP1b, tcP0c, tcP2d]
    start_time := "2024-01-01T00:00:00" }

/-- Fixture: iteration written through the filtered view. -/
def iterEdit : Iteration := { time_ms := some 700, notes := "edited" }

/-- Fixture: test case with recorded times 620, empty, 580, empty, empty. -/
def tcResume : TestCase :=
  { name := "Resume"
    iterations :=
      [{ time_ms := some 620 }, {}, { time_ms := some 580 }, {}, {}] }

/-- Fixture: stopwatch state whose selected test case has all five
iterations confirmed. -/
def stComplete : StopwatchState :=
  { current_test_case_index := 0
    current_iteration_index := 5
    test_cases := [{ name := "Done" }] }

/-- Fixture: session for the serialization round trip. -/
def sessRT : Session :=
  { week := "Wk42"
    device := "PW5"
    build := "14.5.1"
    test_cases := [{ name := "RT", baseline_ms := some 500 }]
    start_time := "2024-01-02T00:00:00"
    global_notes := "notes" }

/-- Fixture: test case with a 500 ms baseline for the baseline-edit
scenarios. -/
def tcBase : TestCase := { name := "Base", baseline_ms := some 500 }

/-- Predicate of the time_ms invariant: the field is either absent or
non-negative. -/
def timeOk (o : Option ℚ) : Prop := ∀ x : ℚ, o = some x → 0 ≤ x

/-- C1: calculate_spike is undefined for a missing or non-positive iteration
time; with a positive baseline it is the percentage deviation from the
baseline regardless of the average; otherwise with a positive average it is
the percentage deviation from the average; otherwise undefined. In
particular spike of 1200 against baseline 1000 is 20 for any average, 1200
against no baseline and average 1000 is 20, and a missing iteration time is
undefined. -/
theorem calculate_spike_contract :
    (∀ b a : Option ℚ, calculate_spike none b a = none) ∧
    (∀ (it : ℚ) (b a : Option ℚ), it ≤ 0 → calculate_spike (some it) b a = none) ∧
    (∀ (it b : ℚ) (a : Option ℚ), 0 < it → 0 < b →
      calculate_spike (some it) (some b) a = some ((it - b) / b * 100)) ∧
    (∀ it a : ℚ, 0 < it → 0 < a →
      calculate_spike (some it) none (some a) = some ((it - a) / a * 100)) ∧
    (∀ it b a : ℚ, 0 < it → b ≤ 0 → 0 < a →
      calculate_spike (some it) (some b) (some a) = some ((it - a) / a * 100)) ∧
    (∀ it : ℚ, 0 < it → calculate_spike (some it) none none = none) ∧
    (∀ it b : ℚ, 0 < it → b ≤ 0 → calculate_spike (some it) (some b) none = none) ∧
    (∀ it b a : ℚ, 0 < it → b ≤ 0 → a ≤ 0 →
      calculate_spike (some it) (some b) (some a) = none) ∧
    (∀ it a : ℚ, 0 < it → a ≤ 0 → calculate_spike (some it) none (some a) = none) ∧
    (∀ X : Option ℚ, calculate_spike (some 1200) (some 1000) X = some 20) ∧
    calculate_spike (some 1200) none (some 1000) = some 20 ∧
    calculate_spike none (some 1000) (some 1000) = none := by
  refine ⟨fun b a => rfl, fun it b a h => ?_, fun it b a hit hb => ?_,
    fun it a hit ha => ?_, fun it b a hit hb ha => ?_, fun it hit => ?_,
    fun it b hit hb => ?_, fun it b a hit hb ha => ?_, fun it a hit ha => ?_,
    fun X => ?_, ?_, rfl⟩
  · simp [calculate_spike, h]
  · simp [calculate_spike, not_le.mpr hit, hb]
  · simp [calculate_spike, spike_vs_average, not_le.mpr hit, ha]
  · simp [calculate_spike, spike_vs_average, not_le.mpr hit, not_lt.mpr hb, ha]
  · simp [calculate_spike, spike_vs_average, not_le.mpr hit]
  · simp [calculate_spike, spike_vs_average, not_le.mpr hit, not_lt.mpr hb]
  · simp [calculate_spike, spike_vs_average, not_le.mpr hit, not_lt.mpr hb, not_lt.mpr ha]
  · simp [calculate_spike, spike_vs_average, not_le.mpr hit, not_lt.mpr ha]
  · norm_num [calculate_spike]
  · norm_num [calculate_spike, spike_vs_average]

/-- Witness for C1 at a concrete non-positive iteration time. -/
theorem calculate_spike_contract_wit :
    calculate_spike (some (-5)) (some 1000) (some 1000) = none :=
  calculate_spike_contract.2.1 (-5) (some 1000) (some 1000) (by decide)

/-- Auxiliary: the list-comprehension form of the valid times equals the
time values of the filtered entries. -/
theorem valid_times_eq (l : List Iteration) :
    l.filterMap (fun it => if it.time_ms.isSome && !it.skipped then it.time_ms else none)
      = (l.filter (fun it => it.time_ms.isSome && !it.skipped)).filterMap
          (fun it => it.time_ms) := by
  induction l with
  | nil => rfl
  | cons h t ih =>
    rw [List.filterMap_cons, List.filter_cons, ih]
    cases hms : h.time_ms with
    | none => simp [hms]
    | some v =>
      cases hs : h.skipped with
      | true => simp [hms, hs]
      | false => simp [hms, hs]

/-- Auxiliary: on a list whose entries all carry a time, extracting the
times preserves the length. -/
theorem length_filterMap_time (l : List Iteration)
    (h : ∀ it ∈ l, it.time_ms.isSome) :
    (l.filterMap (fun it => it.time_ms)).length = l.length := by
  induction l with
  | nil => rfl
  | cons hd t ih =>
    have hhd : hd.time_ms.isSome := h hd (by simp)
    obtain ⟨v, hv⟩ := Option.isSome_iff_exists.mp hhd
    simp [List.filterMap_cons, hv, ih (fun it hit => h it (by simp [hit]))]

/-- C2: calculate_average is the arithmetic mean of the time values of
exactly the entries that carry a time and are not skipped, and is undefined
when no such entry exists. -/
theorem calculate_average_mean (iterations : List Iteration) :
    (iterations.filter (fun it => it.time_ms.isSome && !it.skipped) = [] →
      calculate_average iterations = none) ∧
    (iterations.filter (fun it => it.time_ms.isSome && !it.skipped) ≠ [] →
      calculate_average iterations =
        some
          (((iterations.filter (fun it => it.time_ms.isSome && !it.skipped)).filterMap
              (fun it => it.time_ms)).sum /
            ((iterations.filter (fun it => it.time_ms.isSome && !it.skipped)).length : ℚ))) := by
  have hmem : ∀ it ∈ iterations.filter (fun it => it.time_ms.isSome && !it.skipped),
      it.time_ms.isSome := by
    intro it hit
    have := List.of_mem_filter hit
    exact (Bool.and_eq_true _ _).mp this |>.1
  have hlen := length_filterMap_time _ hmem
  constructor
  · intro hempty
    simp only [calculate_average]
    rw [valid_times_eq, hempty]
    rfl
  · intro hne
    have hlenne : (iterations.filter (fun it => it.time_ms.isSome && !it.skipped)).length ≠ 0 :=
      fun h0 => hne (List.length_eq_zero.mp h0)
    have hvne :
        ((iterations.filter (fun it => it.time_ms.isSome && !it.skipped)).filterMap
            (fun it => it.time_ms)).isEmpty = false := by
      rw [List.isEmpty_eq_false]
      intro he
      exact hlenne (by rw [← hlen, he]; rfl)
    have hcond :
        ¬ (((iterations.filter (fun it => it.time_ms.isSome && !it.skipped)).filterMap
            (fun it => it.time_ms)).isEmpty = true) := by
      rw [hvne]
      decide
    simp only [calculate_average]
    rw [valid_times_eq, if_neg hcond, hlen]

/-- Witness for C2 on a list with no valid entry. -/
theorem calculate_average_mean_wit :
    calculate_average [{ time_ms := none, notes := "", skipped := false }] = none :=
  (calculate_average_mean [{ time_ms := none, notes := "", skipped := false }]).1 (by decide)

/-- C3: TestCase.from_dict always builds exactly 5 iterations; the parsed
entries are kept in order, truncated to the first 5, and missing slots are
padded with empty Iterations. -/
theorem testcase_from_dict_pad_truncate (d : TestCaseDict) :
    (TestCase.from_dict d).iterations.length = 5 ∧
    (TestCase.from_dict d).iterations =
      ((d.iterations.getD (List.replicate 5 IterDict.empty)).map Iteration.from_dict).take 5 ++
        List.replicate
          (5 - ((d.iterations.getD (List.replicate 5 IterDict.empty)).map
              Iteration.from_dict).length)
          ({} : Iteration) := by
  constructor
  · simp only [TestCase.from_dict, List.length_take, List.length_append,
      List.length_replicate]
    omega
  · simp only [TestCase.from_dict]
    rw [List.take_append_eq_append_take, List.take_replicate, Nat.min_self]

/-- Auxiliary: an Iteration survives a serialization round trip. -/
theorem iteration_roundtrip (it : Iteration) :
    Iteration.from_dict (Iteration.to_dict it) = it := rfl

/-- Auxiliary: a list of Iterations survives an elementwise round trip. -/
theorem map_iteration_roundtrip (l : List Iteration) :
    (l.map Iteration.to_dict).map Iteration.from_dict = l := by
  induction l with
  | nil => rfl
  | cons hd t ih => simp [iteration_roundtrip, ih]

/-- Auxiliary: a TestCase with exactly five iterations survives a
serialization round trip. -/
theorem testcase_roundtrip (tc : TestCase) (h : tc.iterations.length = 5) :
    TestCase.from_dict (TestCase.to_dict tc) = tc := by
  cases tc with
  | mk name steps baseline_ms priority iterations test_notes quip_url =>
    simp only [TestCase.iterations] at h
    simp only [TestCase.from_dict, TestCase.to_dict, Option.getD_some,
      map_iteration_roundtrip, h]
    simp [List.take_of_length_le (le_of_eq h)]

/-- Auxiliary: a list of TestCases each with exactly five iterations
survives an elementwise round trip. -/
theorem map_testcase_roundtrip (l : List TestCase)
    (h : ∀ tc ∈ l, tc.iterations.length = 5) :
    (l.map TestCase.to_dict).map TestCase.from_dict = l := by
  induction l with
  | nil => rfl
  | cons hd t ih =>
    simp [testcase_roundtrip hd (h hd (by simp)),
      ih (fun tc htc => h tc (by simp [htc]))]

/-- C4: a Session whose TestCases each hold exactly 5 Iterations is equal
field for field to the parse of its own serialization. -/
theorem session_roundtrip (now : String) (s : Session)
    (h : ∀ tc ∈ s.test_cases, tc.iterations.length = 5) :
    Session.from_dict now (Session.to_dict s) = s := by
  cases s with
  | mk week device build priority_filter test_cases start_time end_time global_notes =>
    simp only [Session.test_cases] at h
    simp [Session.from_dict, Session.to_dict, map_testcase_roundtrip test_cases h]

/-- Witness for C4 on a concrete session with one five-iteration test
case. -/
theorem session_roundtrip_wit :
    (∀ tc ∈ sessRT.test_cases, tc.iterations.length = 5) ∧
      Session.from_dict "2024-02-02T00:00:00" (Session.to_dict sessRT) = sessRT :=
  ⟨by decide, session_roundtrip "2024-02-02T00:00:00" sessRT (by decide)⟩

/-- C5: the priority filter returns the whole list for All and otherwise the
order-preserving subsequence of test cases with the selected priority; on
the P0, P1, P0, P2 scenario filtering by P0 gives the 1st and 3rd cases in
order, filtering by All gives all four, and writing an iteration through row
0 of the filtered view updates entry 0 of the session list. -/
theorem priority_filter_view :
    (∀ s : Session, apply_priority_filter s "All" = s.test_cases) ∧
    (∀ (s : Session) (p : String), p ≠ "All" →
      apply_priority_filter s p = s.test_cases.filter (fun tc => tc.priority == p) ∧
      (apply_priority_filter s p).Sublist s.test_cases ∧
      ∀ tc ∈ apply_priority_filter s p, tc.priority = p) ∧
    apply_priority_filter sessFilter "P0" = [tcP0a, tcP0c] ∧
    apply_priority_filter sessFilter "All" = sessFilter.test_cases ∧
    (update_iteration_data sessFilter (apply_priority_filter sessFilter "P0") 0 0
        iterEdit).test_cases.get? 0 =
      some { tcP0a with iterations := tcP0a.iterations.set 0 iterEdit } := by
  refine ⟨fun s => by simp [apply_priority_filter], fun s p hp => ?_, by decide, by decide,
    by decide⟩
  have hfe : apply_priority_filter s p
      = s.test_cases.filter (fun tc => tc.priority == p) := by
    simp [apply_priority_filter, hp]
  refine ⟨hfe, ?_, ?_⟩
  · rw [hfe]
    exact List.filter_sublist _
  · intro tc htc
    rw [hfe] at htc
    have := List.of_mem_filter htc
    exact eq_of_beq this

/-- Witness for C5 at the concrete scenario session and priority P0. -/
theorem priority_filter_view_wit :
    apply_priority_filter sessFilter "P0" =
        sessFilter.test_cases.filter (fun tc => tc.priority == "P0") ∧
      (apply_priority_filter sessFilter "P0").Sublist sessFilter.test_cases ∧
      ∀ tc ∈ apply_priority_filter sessFilter "P0", tc.priority = "P0" :=
  priority_filter_view.2.1 sessFilter "P0" (by decide)

/-- C6: reselecting a test case reports the lowest index whose slot has no
recorded time, or the length of the iterations list when every slot has one;
for recorded times 620, empty, 580, empty, empty the reported index is 1. -/
theorem resume_first_empty_slot :
    (∀ tc : TestCase,
      first_empty_iteration tc ≤ tc.iterations.length ∧
      (∀ i, i < first_empty_iteration tc →
        ∀ it, tc.iterations.get? i = some it → it.time_ms ≠ none) ∧
      (∀ it, tc.iterations.get? (first_empty_iteration tc) = some it →
        it.time_ms = none) ∧
      ((∀ it ∈ tc.iterations, it.time_ms ≠ none) →
        first_empty_iteration tc = tc.iterations.length)) ∧
    first_empty_iteration tcResume = 1 := by
  refine ⟨fun tc => ⟨List.findIdx_le_length _, ?_, ?_, ?_⟩, by decide⟩
  · intro i hi it hget
    have hil : i < tc.iterations.length :=
      lt_of_lt_of_le hi (List.findIdx_le_length _)
    have hit : it = tc.iterations[i] := by
      have := List.get?_eq_getElem? tc.iterations i
      rw [hget, List.getElem?_eq_getElem hil] at this
      exact (Option.some.inj this)
    have hfalse := List.not_of_lt_findIdx hi
    rw [← hit] at hfalse
    intro hnone
    rw [hnone] at hfalse
    exact absurd hfalse (by simp)
  · intro it hget
    unfold first_empty_iteration at hget
    have hlt : List.findIdx (fun it => it.time_ms.isNone) tc.iterations
        < tc.iterations.length := by
      by_contra hge
      rw [List.get?_eq_getElem?, List.getElem?_eq_none (le_of_not_lt hge)] at hget
      exact Option.noConfusion hget
    have hit :
        it = tc.iterations[List.findIdx (fun it => it.time_ms.isNone) tc.iterations] := by
      have := List.get?_eq_getElem? tc.iterations
        (List.findIdx (fun it => it.time_ms.isNone) tc.iterations)
      rw [hget, List.getElem?_eq_getElem hlt] at this
      exact (Option.some.inj this)
    have htrue := @List.findIdx_getElem Iteration (fun it => it.time_ms.isNone)
      tc.iterations hlt
    rw [← hit] at htrue
    exact Option.isNone_iff_eq_none.mp htrue
  · intro hall
    show List.findIdx (fun it => it.time_ms.isNone) tc.iterations = tc.iterations.length
    refine List.findIdx_eq_length.mpr fun x hx => ?_
    cases hv : x.time_ms with
    | none => exact absurd hv (hall x hx)
    | some v => simp [hv]

/-- Witness for C6 at the concrete resume scenario. -/
theorem resume_first_empty_slot_wit :
    first_empty_iteration tcResume ≤ tcResume.iterations.length ∧
      ({ time_ms := some 620 } : Iteration).time_ms ≠ none :=
  ⟨(resume_first_empty_slot.1 tcResume).1,
   (resume_first_empty_slot.1 tcResume).2.1 0 (by decide) _ (by rfl)⟩

/-- C7: confirming on a test case whose iteration counter has reached five
leaves every test case, and so every one of its five Iteration records,
unchanged. -/
theorem confirm_complete_is_noop (st : StopwatchState)
    (h : 5 ≤ st.current_iteration_index) :
    (confirm_and_next st).test_cases = st.test_cases := by
  unfold confirm_and_next
  repeat' split
  all_goals rfl

/-- Witness for C7 at a completed concrete stopwatch state. -/
theorem confirm_complete_is_noop_wit :
    5 ≤ stComplete.current_iteration_index ∧
      (confirm_and_next stComplete).test_cases = stComplete.test_cases :=
  ⟨by decide, confirm_complete_is_noop stComplete (by decide)⟩

/-- C8 counterexample: Iteration.from_dict validates nothing, so a persisted
dictionary with time_ms equal to -100 loads as an Iteration whose time_ms is
the negative number -100. -/
theorem iteration_from_dict_negative_time :
    (Iteration.from_dict { time_ms := some (some (-100)) }).time_ms = some (-100) ∧
      ¬ timeOk (Iteration.from_dict { time_ms := some (some (-100)) }).time_ms :=
  ⟨rfl, fun hok => absurd (hok (-100) rfl) (by decide)⟩

/-- C8 amended: a freshly created Iteration has no time; loading through
Iteration.from_dict keeps the invariant exactly when the value stored under
time_ms in the dictionary already satisfies it; and the confirm transition
preserves the invariant across the whole test case list whenever the timer
reading is non-negative. -/
theorem time_ms_invariant_amended :
    (({} : Iteration).time_ms = none) ∧
    (∀ d : IterDict, timeOk (d.time_ms.getD none) →
      timeOk (Iteration.from_dict d).time_ms) ∧
    (∀ st : StopwatchState, 0 ≤ st.elapsed_ms →
      (∀ tc ∈ st.test_cases, ∀ it ∈ tc.iterations, timeOk it.time_ms) →
      ∀ tc ∈ (confirm_and_next st).test_cases, ∀ it ∈ tc.iterations, timeOk it.time_ms) := by
  refine ⟨rfl, fun d hok => hok, fun st hel hinv => ?_⟩
  by_cases h1 : st.current_test_case_index = -1 ∨ st.test_cases.length = 0
  · unfold confirm_and_next
    rw [if_pos h1]
    exact hinv
  · unfold confirm_and_next
    rw [if_neg h1]
    by_cases h2 : (st.test_cases.length : ℤ) ≤ st.current_test_case_index
    · rw [if_pos h2]
      exact hinv
    · rw [if_neg h2]
      cases hpy : pyNormIdx st.test_cases.length st.current_test_case_index with
      | none => exact hinv
      | some j =>
        cases hget : st.test_cases.get? j with
        | none =>
          simp only [hget]
          exact hinv
        | some tc0 =>
          simp only [hget]
          by_cases h5 : 5 ≤ st.current_iteration_index
          · rw [if_pos h5]
            exact hinv
          · rw [if_neg h5]
            have key : ∀ tc ∈ st.test_cases.set j
                { tc0 with
                  iterations := List.set
                    (tc0.iterations ++ List.replicate
                      (st.current_iteration_index + 1 - tc0.iterations.length)
                      ({} : Iteration))
                    st.current_iteration_index
                    { time_ms := some st.elapsed_ms,
                      notes := st.iteration_notes_input.trim,
                      skipped := false } },
                ∀ it ∈ tc.iterations, timeOk it.time_ms := by
              intro tc htc it hit
              rcases List.mem_or_eq_of_mem_set htc with hmem | heq
              · exact hinv tc hmem it hit
              · subst heq
                rcases List.mem_or_eq_of_mem_set hit with hmem2 | heq2
                · rcases List.mem_append.mp hmem2 with hold | hrep
                  · exact hinv tc0 (List.get?_mem hget) it hold
                  · rw [List.eq_of_mem_replicate hrep]
                    exact fun _ hx => Option.noConfusion hx
                · subst heq2
                  intro x hx
                  rw [← Option.some.inj hx]
                  exact hel
            split
            · exact key
            · exact key

/-- Witness for C8 at a dictionary whose time_ms entry is absent. -/
theorem time_ms_invariant_amended_wit :
    timeOk (Iteration.from_dict IterDict.empty).time_ms :=
  time_ms_invariant_amended.2.1 IterDict.empty (fun _ hx => Option.noConfusion hx)

/-- C9 counterexample: the text 2s is neither empty nor valid numeric text,
yet the baseline edit does not reject it: it overwrites the 500 ms baseline
with 2000 ms through the seconds-suffix interpretation. -/
theorem baseline_edit_seconds_suffix_cex :
    pyFloat "2s" = none ∧ pyStrip ("2s" : String).toList ≠ [] ∧
      tcBase.baseline_ms = some 500 ∧
      (handle_cell_changed_baseline tcBase "2s").baseline_ms = some 2000 := by
  refine ⟨by decide, by decide, rfl, ?_⟩
  have h : (handle_cell_changed_baseline tcBase "2s").baseline_ms = some (2 * 1000) := rfl
  rw [h]
  norm_num

/-- C9 amended: empty text clears the baseline; nonempty text without an s
suffix is parsed as milliseconds, rejected without change when not numeric;
text with an s suffix (case-insensitive) is parsed without the suffix as
seconds and scaled by 1000, rejected without change when the prefix is not
numeric. -/
theorem baseline_edit_amended (tc : TestCase) (text : String) :
    (pyStrip text.toList = [] →
      handle_cell_changed_baseline tc text = { tc with baseline_ms := none }) ∧
    (endsWithChar (pyLower (pyStrip text.toList)) 's' = false →
      pyStrip text.toList ≠ [] →
      pyFloatChars (pyStrip text.toList) = none →
      handle_cell_changed_baseline tc text = tc) ∧
    (∀ x : ℚ, endsWithChar (pyLower (pyStrip text.toList)) 's' = false →
      pyStrip text.toList ≠ [] →
      pyFloatChars (pyStrip text.toList) = some x →
      handle_cell_changed_baseline tc text = { tc with baseline_ms := some x }) ∧
    (endsWithChar (pyLower (pyStrip text.toList)) 's' = true →
      pyFloatChars (pyStrip text.toList).dropLast = none →
      handle_cell_changed_baseline tc text = tc) ∧
    (∀ x : ℚ, endsWithChar (pyLower (pyStrip text.toList)) 's' = true →
      pyFloatChars (pyStrip text.toList).dropLast = some x →
      handle_cell_changed_baseline tc text =
        { tc with baseline_ms := some (x * 1000) }) := by
  refine ⟨fun hempty => ?_, fun hs hne hparse => ?_, fun x hs hne hparse => ?_,
    fun hs hparse => ?_, fun x hs hparse => ?_⟩
  · simp only [handle_cell_changed_baseline]
    rw [hempty]
    rfl
  · simp only [handle_cell_changed_baseline, hs, hne, hparse, Bool.false_eq_true,
      if_false, if_true, ne_eq, not_false_eq_true]
  · simp only [handle_cell_changed_baseline, hs, hne, hparse, Bool.false_eq_true,
      if_false, if_true, ne_eq, not_false_eq_true]
  · simp only [handle_cell_changed_baseline, hs, hparse, if_true]
  · simp only [handle_cell_changed_baseline, hs, hparse, if_true]

/-- Witness for C9 at a rejected non-numeric text. -/
theorem baseline_edit_amended_wit :
    handle_cell_changed_baseline tcBase "x" = tcBase :=
  (baseline_edit_amended tcBase "x").2.1 (by decide) (by decide) (by decide)

/-- C10: saving a session without a filename fails with the NameError
raised by the unbound datetime name before anything is written, and saving
with a filename writes the serialized session under that name. -/
theorem save_session_default_filename_error :
    (∀ s : Session, save_session s none =
      Except.error "NameError: name datetime is not defined") ∧
    (∀ (s : Session) (f : String), save_session s (some f) = Except.ok (f, s.to_dict)) := by
  refine ⟨fun s => ?_, fun s f => rfl⟩
  simp [save_session, file_manager_resolves, file_manager_imported_names]
